import Mathlib

/-!
Verification development for the vite-plugin-virtual-html repository
(src/html/Base.ts and src/html/Serve.ts), as a shallow embedding.

JavaScript strings are modelled as Lean `String` (a structure over
`List Char`); the JS methods used by the source
(`String.prototype.replace` with a string pattern, which replaces the
first occurrence only, `indexOf`, `split`, `startsWith`, `endsWith`,
`substring`) are modelled by executable functions below.  External
collaborators (node `fs`, node `path.resolve`, vite `normalizePath`,
`fast-glob`, `decodeURI`, the `ejs` render engine) are oracle fields of
an environment record, since they are not code of this repository.
-/

set_option maxRecDepth 16384

namespace VPVH

/-- Index of the first occurrence of `pat` in `s` (JS `indexOf`):
`none` when `pat` does not occur. An empty pattern matches at 0. -/
def findIdxL (pat : List Char) : List Char → Option Nat
  | [] => if pat.isPrefixOf ([] : List Char) then some 0 else none
  | c :: t => if pat.isPrefixOf (c :: t) then some 0 else (findIdxL pat t).map (· + 1)

/-- Whether `pat` occurs in `s`. -/
def hasSubstrL (pat s : List Char) : Bool := (findIdxL pat s).isSome

/-- JS `s.replace(pat, rep)` with a string pattern: replace the first
occurrence only; return `s` unchanged when `pat` does not occur. -/
def jsReplaceL (s pat rep : List Char) : List Char :=
  match findIdxL pat s with
  | none => s
  | some i => s.take i ++ rep ++ s.drop (i + pat.length)

/-- Number of positions at which `pat` occurs in `s`. -/
def countOccL (pat : List Char) : List Char → Nat
  | [] => 0
  | c :: t => (if pat.isPrefixOf (c :: t) then 1 else 0) + countOccL pat t

/-- JS `s.split(d)` for a one-character separator. -/
def splitCharL (d : Char) : List Char → List (List Char)
  | [] => [[]]
  | c :: t =>
    if c = d then [] :: splitCharL d t
    else match splitCharL d t with
      | [] => [[c]]
      | h :: r => (c :: h) :: r

def jsReplace (s pat rep : String) : String := ⟨jsReplaceL s.data pat.data rep.data⟩

def hasSubstr (s pat : String) : Bool := hasSubstrL pat.data s.data

def jsStartsWith (s pre : String) : Bool := pre.data.isPrefixOf s.data

def jsEndsWith (s suf : String) : Bool := suf.data.isSuffixOf s.data

def strDrop (s : String) (n : Nat) : String := ⟨s.data.drop n⟩

def strTake (s : String) (n : Nat) : String := ⟨s.data.take n⟩

def findIdxS (s pat : String) : Option Nat := findIdxL pat.data s.data

def countOccS (s pat : String) : Nat := countOccL pat.data s.data

/-- JS `id.split('/')` at the `String` level. -/
def splitSlash (s : String) : List String := (splitCharL '/' s.data).map String.mk

/-- Template data (`Record<string, unknown>`; unknown values are
modelled as strings, which no claim inspects). -/
abbrev VData := List (String × String)

/-- A render function `(template, data) => string`. -/
abbrev RenderFn := String → VData → String

/-- The `POS` enum of injection positions; `nonePos` stands for any
unrecognized position value. -/
inductive POS where
  | before
  | after
  | nonePos
deriving DecidableEq

/-- An injection rule `{pos, find, replacement}`. -/
structure InjectCode where
  pos : POS
  find : String
  replacement : String

/-- `VirtualPageOptions {entry, title?, body?}`. -/
structure VirtualPageOptions where
  entry : String
  title : Option String
  body : Option String

/-- A page object `{template?, data?, render?}`; optional fields model
possibly-missing JS object keys (readHtml destructures with defaults). -/
structure PageOpt where
  template : Option String
  data : Option VData
  render : Option RenderFn

/-- A page definition: a plain template path string, a page object, or
a virtual page (discriminated in the source by `typeof === 'string'`,
`'template' in`, `'entry' in`). -/
inductive PageDef where
  | str (s : String)
  | pageO (p : PageOpt)
  | virtual (v : VirtualPageOptions)

/-- The page table: logical name to page definition. -/
abbrev Pages := List (String × PageDef)

/-- Environment of external collaborators: node `path.resolve`, vite
`normalizePath`, node `fs`, the `ejs` engine (`none` models
MODULE_NOT_FOUND), JS `decodeURI`, and `fast-glob`. -/
structure Env where
  cwd : String
  normalizePath : String → String
  pathResolve : String → String → String
  fsExists : String → Bool
  fsRead : String → Option String
  ejs : Option RenderFn
  decodeURI : String → String
  globSync : List String → List String

/-- Default glob pattern set (Base.ts lines 294-298). -/
def DEFAULT_GLOB_PATTERN : List String :=
  ["**/*.html", "!node_modules/**/*.html", "!.**/*.html"]

/-- Wildcard injection key (Base.ts line 312). -/
def DEFAULT_INJECTCODE_ALL : String := "*"

/-- The fixed boilerplate document (Base.ts lines 299-311), byte-exact
content of the template literal. -/
def VIRTUAL_HTML_CONTENT : String :=
  "\n<!DOCTYPE html>\n<html lang=\"en\">\n<head>\n    <meta charset=\"UTF-8\">\n    <title>#TITLE#</title>\n    <script src=\"#ENTRY#\" type=\"module\"></script>\n</head>\n<body>\n#BODY#\n</body>\n</html>\n"

/-- The HTML filter `createFilter(/\.html|\/$/)` (Base.ts line 349):
the id contains `.html` or ends with a slash. -/
def _filter (id : String) : Bool := hasSubstr id ".html" || jsEndsWith id "/"

/-- JS truthiness of a page definition: the empty string is falsy,
every other string and every object is truthy. -/
def pdTruthy : PageDef → Bool
  | .str s => !(s == "")
  | _ => true

/-- JS `a || b` on possibly-undefined page definitions (`none` models
`undefined`): return `a` when truthy, else `b`. -/
def jsOr (a b : Option PageDef) : Option PageDef :=
  match a with
  | some d => if pdTruthy d then some d else b
  | none => b

/-- `addTrailingSlash` (Base.ts lines 424-427). -/
def addTrailingSlash (env : Env) (p : String) : String :=
  let _path := env.normalizePath (jsReplace p env.cwd "")
  if jsEndsWith _path "/" then _path else _path ++ "/"

/-- `getHtmlName` (Base.ts lines 412-417): strip the cwd, remove the
first `.html` occurrence, strip the slash-terminated root prefix when a
root is configured, then strip one leading slash. -/
def getHtmlName (env : Env) (id : String) (root : Option String) : String :=
  let _root := jsReplace (root.getD "") env.cwd ""
  let _id := jsReplace id env.cwd ""
  let result := jsReplace (jsReplace _id ".html" "")
      (if _root ≠ "" then addTrailingSlash env _root else "") ""
  if jsStartsWith result "/" then strDrop result 1 else result

/-- `generateUrl` (Base.ts lines 433-442). -/
def generateUrl (url : Option String) : String :=
  match url with
  | none => "/"
  | some u =>
    if u = "" then "/"
    else match findIdxS u "?" with
      | some i => if 0 < i then strTake u i else u
      | none => u

/-- The candidate-probing page selection of `_load` (Base.ts lines
357-363): the filter gate, the normalized name, the three derived
candidate keys, and the `||` lookup chain. -/
def resolveSelect (env : Env) (root : Option String) (pages : Pages) (id : String) :
    Option PageDef :=
  if _filter id then
    let newId := getHtmlName env id root
    let maybeIndexName1 := jsReplace (newId ++ "/") "//" "/"
    let maybeIndexName2 := jsReplace (newId ++ "/index") "//" "/"
    let maybeIndexName3 := jsReplace (jsReplace newId "index" "") "//" "/"
    jsOr (jsOr (jsOr (pages.lookup newId) (pages.lookup maybeIndexName1))
        (pages.lookup maybeIndexName2))
      (pages.lookup maybeIndexName3)
  else none

/-- `generateInjectCode` (Base.ts lines 520-532). -/
def generateInjectCode (ic : InjectCode) (code : String) : String :=
  match ic.pos with
  | .after => jsReplace code ic.find (ic.find ++ "\n" ++ ic.replacement)
  | .before => jsReplace code ic.find ("\n" ++ ic.replacement ++ "\n" ++ ic.find)
  | _ => code

/-- `generateVirtualPage` (Base.ts lines 538-545). -/
def generateVirtualPage (vPages : VirtualPageOptions) : String :=
  jsReplace
    (jsReplace (jsReplace VIRTUAL_HTML_CONTENT "#ENTRY#" vPages.entry)
      "#TITLE#" (vPages.title.getD ""))
    "#BODY#" (vPages.body.getD "<div id=\"app\"></div>")

/-- The default render function, pure result value (Base.ts lines
571-582): delegate to `ejs` when available, else return the template
unmodified. Warning emission is modelled by `defaultRender` below. -/
def pureDefaultRender (env : Env) : RenderFn :=
  fun template data =>
    match env.ejs with
    | some f => f template data
    | none => template

/-- `readTemplate` (Base.ts lines 479-482); `none` models a thrown
read error. -/
def readTemplate (env : Env) (templatePath : String) : Option String :=
  env.fsRead templatePath

/-- `renderTemplate` (Base.ts lines 469-473). -/
def renderTemplate (env : Env) (templatePath : String) (render : RenderFn)
    (data : VData) : Option String :=
  (readTemplate env templatePath).map (fun code => render code data)

/-- Warning logged when the template file is absent (Base.ts line 457). -/
def templateMissingMsg : String := "[vite-plugin-virtual-html]: template file must exist!"

/-- `readHtml` (Base.ts lines 450-461): resolve the template path,
warn and return the empty string when the file is absent, otherwise
read and render. Result: `(none, logs)` models a throw, `(some s, logs)`
a returned string, `logs` the logger output of the call. -/
def readHtml (env : Env) (page : PageOpt) : Option String × List String :=
  let render := page.render.getD (pureDefaultRender env)
  let data := page.data.getD []
  let templatePath := env.pathResolve env.cwd ("." ++ page.template.getD "")
  if env.fsExists templatePath then (renderTemplate env templatePath render data, [])
  else (some "", [templateMissingMsg])

/-- Merge of `{...g, ...d}`: keys of `d` win on collision. -/
def recordMerge (g d : VData) : VData :=
  g.filter (fun p => (d.lookup p.1).isNone) ++ d

/-- `generatePageOptions` (Base.ts lines 490-513). -/
def generatePageOptions (env : Env) (page : String ⊕ PageOpt) (globalData : VData)
    (globalRender : Option RenderFn) : PageOpt :=
  match page with
  | .inl s => ⟨some s, some globalData, globalRender⟩
  | .inr p =>
    ⟨p.template, some (recordMerge globalData (p.data.getD [])),
      some ((p.render <|> globalRender).getD (pureDefaultRender env))⟩

/-- `_load` (Base.ts lines 356-384). Result: outer `none` models a
throw, `some none` the `null` return, `some (some s)` a loaded string;
the list is the logger output. -/
def _load (env : Env) (root : Option String) (pages : Pages) (globalData : VData)
    (globalRender : Option RenderFn) (id : String) :
    Option (Option String) × List String :=
  match resolveSelect env root pages id with
  | some (PageDef.str s) =>
    let page := generatePageOptions env (Sum.inl s) globalData globalRender
    let r := readHtml env page
    (r.1.map some, r.2)
  | some (PageDef.pageO p) =>
    let page := generatePageOptions env (Sum.inr p) globalData globalRender
    let r := readHtml env page
    (r.1.map some, r.2)
  | some (PageDef.virtual v) => (some (some (generateVirtualPage v)), [])
  | none => (some none, [])

/-- The injection lookup key: the trailing path segment of the id
(Base.ts lines 393-394). -/
def lastSegmentKey (id : String) : String :=
  String.mk ((splitCharL '/' id.data).getLastD [])

/-- `_transform` (Base.ts lines 391-405): gate on the filter, apply the
wildcard rule and then the filename rule, each to the original `code`
argument, and return the last assignment. -/
def _transform (injectCode : List (String × InjectCode)) (code id : String) :
    Option String :=
  if _filter id then
    let key := lastSegmentKey id
    let c1 := match injectCode.lookup DEFAULT_INJECTCODE_ALL with
      | some ic => generateInjectCode ic code
      | none => code
    let c2 := match injectCode.lookup key with
      | some ic => generateInjectCode ic code
      | none => c1
    some c2
  else none

/-- JS `Set.add` in insertion order. -/
def jsSetAdd (l : List String) (x : String) : List String :=
  if x ∈ l then l else l ++ [x]

/-- The glob pattern list actually scanned (Base.ts lines 552-562):
the defaults when no extra patterns are given, else the insertion-order
deduplicated union of the defaults and the extra patterns. -/
def realPattern (extraGlobPattern : List String) : List String :=
  if extraGlobPattern = [] then DEFAULT_GLOB_PATTERN
  else (DEFAULT_GLOB_PATTERN ++ extraGlobPattern).foldl jsSetAdd []

/-- Page-table construction from the matched files (Base.ts lines
563-567): key is the basename with the first `.html` occurrence
removed, value the root-relative path; later files shadow earlier ones. -/
def buildPages (files : List String) : Pages :=
  files.foldl
    (fun pages file =>
      (jsReplace (lastSegmentKey file) ".html" "", PageDef.str ("/" ++ file)) :: pages)
    []

/-- `findAllHtmlInProject` (Base.ts lines 550-569). -/
def findAllHtmlInProject (env : Env) (extraGlobPattern : List String) : Pages :=
  buildPages (env.globSync (realPattern extraGlobPattern))

/-- Warning logged when `ejs` is missing (Base.ts line 276). -/
def ejsNotFoundMsg : String :=
  "[vite-plugin-virtual-html]: Module ejs is not found! If you want to use it, please install it. Otherwise please ignore this error!"

/-- `defaultRender` with its warning state (Base.ts lines 265-282):
`ejs = none` models `require` failing with MODULE_NOT_FOUND. Returns
the render result, the updated `alreadyShowEjsError` flag, and the
logger output of the call. -/
def defaultRender (ejs : Option RenderFn) (alreadyShowEjsError : Bool)
    (template : String) (data : VData) : String × Bool × List String :=
  match ejs with
  | some f => (f template data, alreadyShowEjsError, [])
  | none => (template, true, if alreadyShowEjsError then [] else [ejsNotFoundMsg])

/-- All warnings emitted by a sequence of `defaultRender` calls,
threading the `alreadyShowEjsError` flag. -/
def defaultRenderWarnings (ejs : Option RenderFn) :
    Bool → List (String × VData) → List String
  | _, [] => []
  | flag, (t, d) :: rest =>
    let r := defaultRender ejs flag t d
    r.2.2 ++ defaultRenderWarnings ejs r.2.1 rest

/-- Outcome of the dev-server middleware: fall through to `next()` or
end the response with a body. -/
inductive MwResult where
  | next
  | respond (body : String)

/-- The effective request URL of the middleware (Serve.ts lines 26-31):
prefer `originalUrl` when it ends in `/`, else `req.url`; strip the
query, decode, then apply the optional URL transformer. -/
def effectiveUrl (env : Env) (urlTransformer : Option (String → String))
    (originalUrl reqUrl : Option String) : String :=
  let base := match originalUrl with
    | some o => if jsEndsWith o "/" then some o else reqUrl
    | none => reqUrl
  let url0 := env.decodeURI (generateUrl base)
  match urlTransformer with
  | some f => f url0
  | none => url0

/-- The catch-all middleware registered by `Serve._configureServer`
(Serve.ts lines 25-50). `load`, `transform` and `transformIndexHtml`
are the methods/host hook it calls; the second component records the
arguments passed to `load`. -/
def serveMiddleware (env : Env) (indexPage : String)
    (urlTransformer : Option (String → String)) (load : String → Option String)
    (transform : String → String → Option String)
    (transformIndexHtml : String → String → String)
    (originalUrl reqUrl : Option String) : MwResult × List String :=
  let url := effectiveUrl env urlTransformer originalUrl reqUrl
  if (!jsEndsWith url ".html" && !jsEndsWith url "/") && !(url == "/") then
    (.next, [])
  else
    let url2 := if url == "/" || url == "/index.html"
      then "/" ++ indexPage ++ ".html" else url
    let loadArg := env.normalizePath url2
    let htmlCode := (load loadArg).getD ""
    let outcome := match transform htmlCode url2 with
      | none => MwResult.next
      | some t => MwResult.respond (transformIndexHtml url2 t)
    (outcome, [loadArg])

/-- A concrete environment for counterexamples and witnesses: cwd
`/root`, no files on disk, `ejs` missing, identity path functions. -/
def envC : Env :=
  ⟨"/root", fun s => s, fun _ p => p, fun _ => false, fun _ => none, none,
    fun s => s, fun _ => []⟩

/-- Page table holding one definition under the bare name `n`. -/
def pagesC1 : Pages := [("n", PageDef.str "/n.html")]

/-- Page table with an empty-string (falsy) definition under the exact
name `n` and a definition under the derived candidate key `n/`. -/
def pagesC10 : Pages := [("n", PageDef.str ""), ("n/", PageDef.str "/x.html")]

/-- Injection configuration with both a wildcard rule and a
filename-specific rule for `x.html`. -/
def injC2 : List (String × InjectCode) :=
  [("*", ⟨POS.after, "A", "W"⟩), ("x.html", ⟨POS.after, "W", "K"⟩)]

/-- The virtual page options of the C5 scenario. -/
def virtC5 : VirtualPageOptions := ⟨"/src/main.ts", some "App", none⟩

/-- The expected synthesized document of the C5 scenario. -/
def expectedC5 : String :=
  "\n<!DOCTYPE html>\n<html lang=\"en\">\n<head>\n    <meta charset=\"UTF-8\">\n    <title>App</title>\n    <script src=\"/src/main.ts\" type=\"module\"></script>\n</head>\n<body>\n<div id=\"app\"></div>\n</body>\n</html>\n"

theorem isPrefixOf_iff_take (p : List Char) : ∀ s : List Char,
    p.isPrefixOf s = true ↔ s.take p.length = p := by
  induction p with
  | nil => intro s; simp [List.isPrefixOf]
  | cons a as ih =>
    intro s
    cases s with
    | nil => simp [List.isPrefixOf]
    | cons b bs =>
      simp only [List.isPrefixOf, Bool.and_eq_true, beq_iff_eq, ih,
        List.length_cons, List.take_succ_cons, List.cons.injEq]
      constructor
      · rintro ⟨h1, h2⟩; exact ⟨h1.symm, h2⟩
      · rintro ⟨h1, h2⟩; exact ⟨h1.symm, h2⟩

theorem isPrefixOf_rfl (l : List Char) : l.isPrefixOf l = true := by
  rw [isPrefixOf_iff_take]; simp

theorem findIdxL_cons_none {pat : List Char} {c : Char} {t : List Char}
    (h : findIdxL pat (c :: t) = none) :
    pat.isPrefixOf (c :: t) = false ∧ findIdxL pat t = none := by
  by_cases hp : pat.isPrefixOf (c :: t) = true
  · simp [findIdxL, hp] at h
  · simp only [Bool.not_eq_true] at hp
    simp only [findIdxL, hp, Bool.false_eq_true, if_false, Option.map_eq_none'] at h
    exact ⟨hp, h⟩

theorem findIdxL_append_self (pat : List Char) (hne : pat ≠ [])
    (hov : ∀ m, m < pat.length → 0 < m → pat.drop m ≠ pat.take (pat.length - m)) :
    ∀ a : List Char, findIdxL pat a = none → findIdxL pat (a ++ pat) = some a.length := by
  intro a
  induction a with
  | nil =>
    intro _
    cases pat with
    | nil => exact absurd rfl hne
    | cons c t => simp [findIdxL, isPrefixOf_rfl]
  | cons c t ih =>
    intro hno
    obtain ⟨hpre, hno'⟩ := findIdxL_cons_none hno
    have hnotpre : pat.isPrefixOf (c :: (t ++ pat)) = false := by
      by_contra hcon
      simp only [Bool.not_eq_false] at hcon
      rw [isPrefixOf_iff_take] at hcon
      have hs : (c :: (t ++ pat)) = (c :: t) ++ pat := rfl
      rw [hs, List.take_append_eq_append_take] at hcon
      by_cases hm : pat.length ≤ (c :: t).length
      · rw [Nat.sub_eq_zero_of_le hm] at hcon
        simp only [List.take_zero, List.append_nil] at hcon
        have : pat.isPrefixOf (c :: t) = true := by
          rw [isPrefixOf_iff_take]; exact hcon
        rw [hpre] at this
        exact Bool.noConfusion this
      · push_neg at hm
        rw [List.take_of_length_le (le_of_lt hm)] at hcon
        have hd : pat.drop (c :: t).length = pat.take (pat.length - (c :: t).length) := by
          conv_lhs => rw [← hcon]
          rw [List.drop_left]
        exact hov (c :: t).length hm (Nat.succ_pos _) hd
    have hstep : findIdxL pat ((c :: t) ++ pat) = (findIdxL pat (t ++ pat)).map (· + 1) := by
      simp [findIdxL, hnotpre]
    rw [hstep, ih hno']
    simp

theorem jsReplaceL_append_strip (pat a : List Char) (hne : pat ≠ [])
    (hov : ∀ m, m < pat.length → 0 < m → pat.drop m ≠ pat.take (pat.length - m))
    (hno : findIdxL pat a = none) :
    jsReplaceL (a ++ pat) pat [] = a := by
  unfold jsReplaceL
  rw [findIdxL_append_self pat hne hov a hno]
  have hdrop : (a ++ pat).drop (a.length + pat.length) = [] := by
    apply List.drop_eq_nil_of_le
    simp [List.length_append]
  show List.take a.length (a ++ pat) ++ [] ++ List.drop (a.length + pat.length) (a ++ pat) = a
  rw [List.take_left, hdrop]
  simp

theorem findIdxL_append_isSome (pat : List Char) :
    ∀ a : List Char, (findIdxL pat (a ++ pat)).isSome = true := by
  intro a
  induction a with
  | nil =>
    cases pat with
    | nil => simp [findIdxL, List.isPrefixOf]
    | cons c t => simp [findIdxL, isPrefixOf_rfl]
  | cons c t ih =>
    have hred : findIdxL pat ((c :: t) ++ pat) =
        if pat.isPrefixOf (c :: (t ++ pat)) then some 0
        else (findIdxL pat (t ++ pat)).map (· + 1) := rfl
    rw [hred]
    by_cases hp : pat.isPrefixOf (c :: (t ++ pat)) = true
    · rw [if_pos hp]; rfl
    · simp only [Bool.not_eq_true] at hp
      rw [hp]
      simpa using ih

theorem data_append (a b : String) : (a ++ b).data = a.data ++ b.data := rfl

theorem hasSubstr_append_suffix (a pat : String) : hasSubstr (a ++ pat) pat = true := by
  unfold hasSubstr hasSubstrL
  rw [data_append]
  exact findIdxL_append_isSome pat.data a.data

theorem hasSubstr_eq_false_iff (s pat : String) :
    hasSubstr s pat = false ↔ findIdxL pat.data s.data = none := by
  unfold hasSubstr hasSubstrL
  cases h : findIdxL pat.data s.data <;> simp [h]

theorem jsReplace_no_occur (s pat rep : String) (h : hasSubstr s pat = false) :
    jsReplace s pat rep = s := by
  rw [hasSubstr_eq_false_iff] at h
  unfold jsReplace jsReplaceL
  rw [h]

theorem findIdxL_nil_pat (s : List Char) : findIdxL [] s = some 0 := by
  cases s <;> simp [findIdxL, List.isPrefixOf]

theorem jsReplace_empty_pat (s : String) : jsReplace s "" "" = s := by
  cases s with
  | mk d =>
    unfold jsReplace jsReplaceL
    rw [show ("" : String).data = [] from rfl, findIdxL_nil_pat]
    simp

theorem jsReplace_on_empty (pat : String) : jsReplace "" pat "" = "" := by
  unfold jsReplace jsReplaceL
  cases hp : pat.data with
  | nil => rfl
  | cons c t => rfl

theorem html_no_overlap : ∀ m, m < (".html" : String).data.length → 0 < m →
    (".html" : String).data.drop m ≠
      (".html" : String).data.take ((".html" : String).data.length - m) := by
  decide

theorem jsReplace_strip_suffix (a : String) (hno : hasSubstr a ".html" = false) :
    jsReplace (a ++ ".html") ".html" "" = a := by
  unfold jsReplace
  rw [data_append]
  rw [jsReplaceL_append_strip (".html" : String).data a.data (by decide) html_no_overlap
    ((hasSubstr_eq_false_iff a ".html").1 hno)]

theorem startsWith_slash_append (n : String) : jsStartsWith ("/" ++ n) "/" = true := by
  unfold jsStartsWith
  rw [data_append]
  simp [List.isPrefixOf]

theorem strDrop_slash_append (n : String) : strDrop ("/" ++ n) 1 = n := by
  unfold strDrop
  rw [data_append]
  rfl

theorem getHtmlName_bare (env : Env) (n : String)
    (h1 : hasSubstr (("/" ++ n) ++ ".html") env.cwd = false)
    (h2 : hasSubstr ("/" ++ n) ".html" = false) :
    getHtmlName env (("/" ++ n) ++ ".html") none = n := by
  simp only [getHtmlName, Option.getD]
  rw [jsReplace_on_empty]
  simp only [ne_eq, not_true_eq_false, if_false]
  rw [jsReplace_no_occur _ _ _ h1, jsReplace_strip_suffix _ h2, jsReplace_empty_pat,
    startsWith_slash_append, if_pos rfl, strDrop_slash_append]

/-- Claim C1 (counterexample): with a page table holding a definition
under the bare name `n` only, the request `/n.html` resolves to it,
but the request forms `/n/` and `/n/index` do NOT resolve to that
definition — `/n/` probes only the keys `n/` and `n/index`, and
`/n/index` is rejected by the HTML filter, so `_load` returns null. -/
theorem resolve_slash_and_index_requests_miss_bare_name :
    resolveSelect envC none pagesC1 "/n.html" = some (PageDef.str "/n.html") ∧
    resolveSelect envC none pagesC1 "/n/" = none ∧
    resolveSelect envC none pagesC1 "/n/index" = none ∧
    _load envC none pagesC1 [] none "/n/" = (some none, []) ∧
    _load envC none pagesC1 [] none "/n/index" = (some none, []) :=
  ⟨rfl, rfl, rfl, rfl, rfl⟩

/-- Claim C1 (amended): of the request forms named by the claim, only
`/n.html` is guaranteed to resolve through the candidate probing of
`_load` to the definition stored under the bare name `n` (provided `n`
contains no `.html` occurrence, the request does not contain the
working directory, and the stored definition is truthy). The
trailing-slash and `/index` request forms do not reach the bare key. -/
theorem resolve_bare_request_finds_bare_name (env : Env) (pages : Pages)
    (n : String) (d : PageDef)
    (h1 : hasSubstr (("/" ++ n) ++ ".html") env.cwd = false)
    (h2 : hasSubstr ("/" ++ n) ".html" = false)
    (h3 : pages.lookup n = some d)
    (h4 : pdTruthy d = true) :
    resolveSelect env none pages (("/" ++ n) ++ ".html") = some d := by
  have hf : _filter (("/" ++ n) ++ ".html") = true := by
    unfold _filter
    rw [hasSubstr_append_suffix]
    rfl
  have hname := getHtmlName_bare env n h1 h2
  simp only [resolveSelect, hf, if_true, hname, h3]
  simp [jsOr, h4]

/-- Witness for the amended C1 theorem at a concrete table. -/
theorem resolve_bare_request_finds_bare_name_witness :
    resolveSelect envC none [("about", PageDef.str "/about.html")]
      (("/" ++ "about") ++ ".html") = some (PageDef.str "/about.html") :=
  resolve_bare_request_finds_bare_name envC [("about", PageDef.str "/about.html")]
    "about" (PageDef.str "/about.html") (by decide) (by decide) rfl rfl

/-- Claim C2 (counterexample): with both a wildcard rule and a
filename rule configured, `_transform` does not feed the wildcard
output into the filename rule: on code `"A"` and id `"x.html"` it
returns `"A"` (the filename rule applied to the original code, whose
`find` text `"W"` is absent there), not the chained result
`"A\nW\nK"`. -/
theorem transform_rules_not_chained :
    _transform injC2 "A" "x.html" = some "A" ∧
    generateInjectCode ⟨POS.after, "W", "K"⟩
      (generateInjectCode ⟨POS.after, "A", "W"⟩ "A") = "A\nW\nK" ∧
    _transform injC2 "A" "x.html" ≠
      some (generateInjectCode ⟨POS.after, "W", "K"⟩
        (generateInjectCode ⟨POS.after, "A", "W"⟩ "A")) := by
  refine ⟨rfl, rfl, ?_⟩
  decide

/-- Claim C2 (amended): for every id accepted by the HTML filter,
`_transform` applies the wildcard rule first and the filename rule
second, but each rule operates on the ORIGINAL code; when the filename
rule is present its result (computed from the original code) is
returned, discarding the wildcard result, and the wildcard result is
returned only when no filename rule exists. -/
theorem transform_rules_apply_to_original
    (injectCode : List (String × InjectCode)) (code id : String)
    (h : _filter id = true) :
    (∀ icAll icKey : InjectCode,
      injectCode.lookup DEFAULT_INJECTCODE_ALL = some icAll →
      injectCode.lookup (lastSegmentKey id) = some icKey →
      _transform injectCode code id = some (generateInjectCode icKey code)) ∧
    (injectCode.lookup (lastSegmentKey id) = none →
      ∀ icAll : InjectCode, injectCode.lookup DEFAULT_INJECTCODE_ALL = some icAll →
      _transform injectCode code id = some (generateInjectCode icAll code)) ∧
    (injectCode.lookup (lastSegmentKey id) = none →
      injectCode.lookup DEFAULT_INJECTCODE_ALL = none →
      _transform injectCode code id = some code) := by
  refine ⟨?_, ?_, ?_⟩
  · intro icAll icKey hA hK
    simp only [_transform, h, if_true, hA, hK]
  · intro hK icAll hA
    simp only [_transform, h, if_true, hA, hK]
  · intro hK hA
    simp only [_transform, h, if_true, hA, hK]

/-- Witness for the amended C2 theorem. -/
theorem transform_rules_apply_to_original_witness :
    _transform injC2 "A" "x.html" =
      some (generateInjectCode ⟨POS.after, "W", "K"⟩ "A") :=
  (transform_rules_apply_to_original injC2 "A" "x.html" rfl).1
    ⟨POS.after, "A", "W"⟩ ⟨POS.after, "W", "K"⟩ rfl rfl

/-- Claim C3 (counterexample): with `position = before`, `find = "A"`,
`replacement = "X"` on input `"A\nB"`, `generateInjectCode` returns
`"\nX\nA\nB"` — with a leading newline — not `"X\nA\nB"` as claimed. -/
theorem generateInjectCode_before_leading_newline :
    generateInjectCode ⟨POS.before, "A", "X"⟩ "A\nB" = "\nX\nA\nB" ∧
    generateInjectCode ⟨POS.before, "A", "X"⟩ "A\nB" ≠ "X\nA\nB" := by
  refine ⟨rfl, ?_⟩
  decide

/-- Claim C3 (amended): `position = after` yields `"A\nX\nB"`;
`position = before` yields `"\nX\nA\nB"` (the replacement is wrapped in
newlines and placed before the first occurrence of `find`, leaving a
leading newline); an unrecognized position returns the input unchanged;
in the first two cases only the first occurrence of `find` is touched
(shown on an input with two occurrences). -/
theorem generateInjectCode_cases :
    generateInjectCode ⟨POS.after, "A", "X"⟩ "A\nB" = "A\nX\nB" ∧
    generateInjectCode ⟨POS.before, "A", "X"⟩ "A\nB" = "\nX\nA\nB" ∧
    generateInjectCode ⟨POS.nonePos, "A", "X"⟩ "A\nB" = "A\nB" ∧
    generateInjectCode ⟨POS.after, "A", "X"⟩ "A\nB\nA" = "A\nX\nB\nA" ∧
    generateInjectCode ⟨POS.before, "A", "X"⟩ "A\nB\nA" = "\nX\nA\nB\nA" :=
  ⟨rfl, rfl, rfl, rfl, rfl⟩

/-- Claim C4 (counterexample): `getHtmlName` is not idempotent under
the claim's guard. On input `"a.html.htmlb"` it returns `"a.htmlb"`,
whose output has no leading slash and no `.html` suffix, yet a second
application returns `"ab"`: the code removes the FIRST `.html`
occurrence anywhere, not a suffix. -/
theorem getHtmlName_not_idempotent :
    getHtmlName envC "a.html.htmlb" none = "a.htmlb" ∧
    jsStartsWith (getHtmlName envC "a.html.htmlb" none) "/" = false ∧
    jsEndsWith (getHtmlName envC "a.html.htmlb" none) ".html" = false ∧
    getHtmlName envC (getHtmlName envC "a.html.htmlb" none) none = "ab" ∧
    getHtmlName envC (getHtmlName envC "a.html.htmlb" none) none ≠
      getHtmlName envC "a.html.htmlb" none := by
  refine ⟨rfl, rfl, rfl, rfl, ?_⟩
  decide

/-- Claim C4 (amended): `getHtmlName` is idempotent provided its output
has no leading slash, contains no `.html` occurrence anywhere (not
merely no `.html` suffix), contains no occurrence of the working
directory, and — when a non-empty root prefix is configured — no
occurrence of the slash-terminated root prefix. -/
theorem getHtmlName_idem (env : Env) (p : String) (r : Option String)
    (h1 : hasSubstr (getHtmlName env p r) ".html" = false)
    (h2 : hasSubstr (getHtmlName env p r) env.cwd = false)
    (h3 : jsStartsWith (getHtmlName env p r) "/" = false)
    (h4 : jsReplace (r.getD "") env.cwd "" ≠ "" →
      hasSubstr (getHtmlName env p r)
        (addTrailingSlash env (jsReplace (r.getD "") env.cwd "")) = false) :
    getHtmlName env (getHtmlName env p r) r = getHtmlName env p r := by
  set y := getHtmlName env p r with hy
  simp only [getHtmlName]
  rw [jsReplace_no_occur _ _ _ h2, jsReplace_no_occur _ _ _ h1]
  by_cases hr : jsReplace (r.getD "") env.cwd "" = ""
  · rw [hr]
    simp only [ne_eq, not_true_eq_false, if_false]
    rw [jsReplace_empty_pat, h3]
    simp
  · rw [if_pos hr, jsReplace_no_occur _ _ _ (h4 hr), h3]
    simp

/-- Witness for the amended C4 theorem. -/
theorem getHtmlName_idem_witness :
    getHtmlName envC (getHtmlName envC "/foo.html" none) none =
      getHtmlName envC "/foo.html" none :=
  getHtmlName_idem envC "/foo.html" none (by decide) (by decide) (by decide)
    (fun h => absurd rfl h)

/-- Claim C5 (confirmed): `generateVirtualPage` on
`{entry: "/src/main.ts", title: "App"}` with the default body returns
the boilerplate document byte-exactly except for the three placeholder
substitutions, containing exactly one `<title>App</title>`, one
`<script src="/src/main.ts" type="module">`, and one
`<div id="app"></div>`. -/
theorem generateVirtualPage_byte_exact :
    generateVirtualPage virtC5 = expectedC5 ∧
    countOccS expectedC5 "<title>App</title>" = 1 ∧
    countOccS expectedC5 "<script src=\"/src/main.ts\" type=\"module\">" = 1 ∧
    countOccS expectedC5 "<div id=\"app\"></div>" = 1 :=
  ⟨rfl, rfl, rfl, rfl⟩

/-- Claim C6 (confirmed): for every template-based page whose resolved
template file is absent on disk, `readHtml` returns the empty string
without throwing and logs exactly one warning. -/
theorem readHtml_missing_template (env : Env) (page : PageOpt)
    (h : env.fsExists (env.pathResolve env.cwd ("." ++ page.template.getD "")) = false) :
    readHtml env page = (some "", [templateMissingMsg]) := by
  simp [readHtml, h]

/-- Witness for the C6 theorem. -/
theorem readHtml_missing_template_witness :
    readHtml envC ⟨none, none, none⟩ = (some "", [templateMissingMsg]) :=
  readHtml_missing_template envC ⟨none, none, none⟩ rfl

/-- Claim C7 (confirmed): the dev-server middleware calls `next()`
without calling `load` whenever the effective request URL is not
exactly `/`, does not end with `/`, and does not end with `.html`;
and it rewrites the URLs `/` and `/index.html` to
`/ + indexPage + .html` before calling `load` (the recorded `load`
argument is the rewritten URL, normalized). -/
theorem serveMiddleware_passthrough_and_rewrite (env : Env) (indexPage : String)
    (urlTransformer : Option (String → String)) (load : String → Option String)
    (transform : String → String → Option String)
    (transformIndexHtml : String → String → String)
    (originalUrl reqUrl : Option String) :
    (jsEndsWith (effectiveUrl env urlTransformer originalUrl reqUrl) ".html" = false →
      jsEndsWith (effectiveUrl env urlTransformer originalUrl reqUrl) "/" = false →
      effectiveUrl env urlTransformer originalUrl reqUrl ≠ "/" →
      serveMiddleware env indexPage urlTransformer load transform transformIndexHtml
        originalUrl reqUrl = (MwResult.next, [])) ∧
    ((effectiveUrl env urlTransformer originalUrl reqUrl = "/" ∨
      effectiveUrl env urlTransformer originalUrl reqUrl = "/index.html") →
      (serveMiddleware env indexPage urlTransformer load transform transformIndexHtml
        originalUrl reqUrl).2 = [env.normalizePath ("/" ++ indexPage ++ ".html")]) := by
  constructor
  · intro hA hB hC
    have hq : ((effectiveUrl env urlTransformer originalUrl reqUrl : String) == "/") = false := by
      exact beq_eq_false_iff_ne.mpr hC
    simp only [serveMiddleware, hA, hB, hq]
    rfl
  · intro h
    rcases h with h | h <;> rw [serveMiddleware, h]
    · have hc1 : ((!jsEndsWith "/" ".html" && !jsEndsWith "/" "/") &&
          !(("/" : String) == "/")) = false := by decide
      have hc2 : (("/" : String) == "/" || ("/" : String) == "/index.html") = true := by
        decide
      simp only [hc1, hc2, Bool.false_eq_true, if_false, if_true]
    · have hc1 : ((!jsEndsWith "/index.html" ".html" && !jsEndsWith "/index.html" "/") &&
          !(("/index.html" : String) == "/")) = false := by decide
      have hc2 : (("/index.html" : String) == "/" ||
          ("/index.html" : String) == "/index.html") = true := by decide
      simp only [hc1, hc2, Bool.false_eq_true, if_false, if_true]

/-- Witness for the C7 theorem: the URL `/foo` neither ends in `.html`
nor in `/` nor equals `/`, so the middleware falls through untouched. -/
theorem serveMiddleware_passthrough_witness :
    serveMiddleware envC "index" none (fun _ => some "") (fun c _ => some c)
      (fun _ s => s) none (some "/foo") = (MwResult.next, []) :=
  (serveMiddleware_passthrough_and_rewrite envC "index" none (fun _ => some "")
    (fun c _ => some c) (fun _ s => s) none (some "/foo")).1
    (by decide) (by decide) (by decide)

/-- A sequence of `defaultRender` calls starting with the flag set
emits no warnings. -/
theorem defaultRenderWarnings_flagged (calls : List (String × VData)) :
    defaultRenderWarnings none true calls = [] := by
  induction calls with
  | nil => rfl
  | cons c rest ih =>
    obtain ⟨t, d⟩ := c
    simp [defaultRenderWarnings, defaultRender, ih]

/-- Claim C8 (confirmed): when the `ejs` dependency is not installed,
`defaultRender` returns the raw template text unmodified without
raising an error, and across any sequence of calls in the plugin's
lifetime (the `alreadyShowEjsError` flag starts false) the
missing-module warning is emitted at most once. -/
theorem defaultRender_missing_ejs_warn_once : ∀ calls : List (String × VData),
    (∀ (flag : Bool) (t : String) (d : VData), (defaultRender none flag t d).1 = t) ∧
    (defaultRenderWarnings none false calls).length ≤ 1 := by
  intro calls
  refine ⟨fun _ _ _ => rfl, ?_⟩
  cases calls with
  | nil => simp [defaultRenderWarnings]
  | cons c rest =>
    obtain ⟨t, d⟩ := c
    simp [defaultRenderWarnings, defaultRender, defaultRenderWarnings_flagged]

/-- Membership in a JS-`Set` fold: an element is in the result iff it
was in the accumulator or in the folded list. -/
theorem mem_foldl_jsSetAdd (x : String) : ∀ (l acc : List String),
    x ∈ l.foldl jsSetAdd acc ↔ x ∈ acc ∨ x ∈ l := by
  intro l
  induction l with
  | nil => intro acc; simp
  | cons a t ih =>
    intro acc
    rw [List.foldl_cons, ih]
    unfold jsSetAdd
    by_cases ha : a ∈ acc
    · rw [if_pos ha]
      constructor
      · rintro (h | h)
        · exact Or.inl h
        · exact Or.inr (List.mem_cons_of_mem a h)
      · rintro (h | h)
        · exact Or.inl h
        · rcases List.mem_cons.mp h with h' | h'
          · exact Or.inl (h' ▸ ha)
          · exact Or.inr h'
    · rw [if_neg ha]
      simp only [List.mem_append, List.mem_singleton, List.mem_cons]
      tauto

/-- A JS-`Set` fold from a duplicate-free accumulator stays
duplicate-free. -/
theorem nodup_foldl_jsSetAdd : ∀ (l acc : List String),
    acc.Nodup → (l.foldl jsSetAdd acc).Nodup := by
  intro l
  induction l with
  | nil => intro acc h; simpa
  | cons a t ih =>
    intro acc h
    rw [List.foldl_cons]
    apply ih
    unfold jsSetAdd
    by_cases ha : a ∈ acc
    · rwa [if_pos ha]
    · rw [if_neg ha]
      refine List.Nodup.append h (List.nodup_singleton a) ?_
      intro x hx hx'
      rw [List.mem_singleton] at hx'
      exact ha (hx' ▸ hx)

/-- Claim C9 (confirmed): with an empty `extraGlobPattern` the scan
uses exactly the default pattern set; with a non-empty one it uses the
deduplicated set union of the defaults and the extra patterns; and
`findAllHtmlInProject` scans (via the glob collaborator) exactly that
pattern list. -/
theorem findAllHtml_pattern_union : ∀ extraGlobPattern : List String,
    (extraGlobPattern = [] → realPattern extraGlobPattern = DEFAULT_GLOB_PATTERN) ∧
    (realPattern extraGlobPattern).Nodup ∧
    (∀ p : String, p ∈ realPattern extraGlobPattern ↔
      p ∈ DEFAULT_GLOB_PATTERN ∨ p ∈ extraGlobPattern) ∧
    (∀ env : Env, findAllHtmlInProject env extraGlobPattern =
      buildPages (env.globSync (realPattern extraGlobPattern))) := by
  intro extra
  refine ⟨fun h => by rw [h]; rfl, ?_, ?_, fun env => rfl⟩
  · unfold realPattern
    by_cases he : extra = []
    · rw [if_pos he]; decide
    · rw [if_neg he]
      exact nodup_foldl_jsSetAdd _ [] List.nodup_nil
  · intro p
    unfold realPattern
    by_cases he : extra = []
    · rw [if_pos he, he]
      simp
    · rw [if_neg he, mem_foldl_jsSetAdd]
      simp [List.mem_append]

/-- Witness for the C9 theorem: the empty extra-pattern case. -/
theorem findAllHtml_pattern_union_witness :
    realPattern [] = DEFAULT_GLOB_PATTERN :=
  (findAllHtml_pattern_union []).1 rfl

/-- Claim C10 (counterexample): exact-name priority fails for a falsy
definition: with the empty string stored under the exact name `n` and
a definition under the derived key `n/`, the `||` chain skips the
exact-name entry and loads the one under `n/`. -/
theorem resolve_exact_name_falsy_skipped :
    pagesC10.lookup "n" = some (PageDef.str "") ∧
    resolveSelect envC none pagesC10 "/n.html" = some (PageDef.str "/x.html") ∧
    PageDef.str "/x.html" ≠ PageDef.str "" := by
  refine ⟨rfl, rfl, ?_⟩
  intro h
  injection h with h'
  exact absurd h' (by decide)

/-- Claim C10 (amended): in `_load`'s candidate probing the exact
normalized name takes priority over the derived candidate keys
provided its stored definition is truthy (not the empty string);
whatever the table holds under the derived keys, the exact-name
definition is the one selected. -/
theorem resolve_exact_name_priority (env : Env) (root : Option String)
    (pages : Pages) (id : String) (d : PageDef)
    (h1 : _filter id = true)
    (h2 : pages.lookup (getHtmlName env id root) = some d)
    (h3 : pdTruthy d = true) :
    resolveSelect env root pages id = some d := by
  simp only [resolveSelect, h1, if_true, h2]
  simp [jsOr, h3]

/-- Witness for the amended C10 theorem. -/
theorem resolve_exact_name_priority_witness :
    resolveSelect envC none
      [("m", PageDef.str "/m.html"), ("m/", PageDef.str "/other.html")] "/m.html" =
      some (PageDef.str "/m.html") :=
  resolve_exact_name_priority envC none
    [("m", PageDef.str "/m.html"), ("m/", PageDef.str "/other.html")] "/m.html"
    (PageDef.str "/m.html") (by decide) rfl rfl

end VPVH
